import Mathlib

/-!
# PS/2 keyboard driver (`keyboard.c`): shallow embedding and verified properties

Conventions of the embedding.

* `unsigned int` / `int` are 32 bits wide.  Unsigned values are natural numbers
  below `2^32`; a signed value is carried by its two's complement bit pattern
  when it passes through `abs`.
* `char` is an 8-bit unsigned quantity (the ARM EABI used by the eLua targets),
  so a `char` is a natural number below `256` and a conversion to `char` is
  `% 256`.
* Integers coming from the Lua stack (`luaL_checkinteger`) are `Int`.
* Every busy-wait on the clock pin is taken to complete: the keyboard owns the
  clock and keeps toggling it.  A keyboard that stops clocking is outside the
  model.
* `printf` output is not part of the model.
-/

namespace Keyboard

/-! ## Constants (`#define`s) -/

/-- Value of `#define IGNORE 1`. -/
def IGNORE : Nat := 1
/-- Value of `#define USE 0`. -/
def USE : Nat := 0
/-- Value of `#define ERROR 0`. -/
def ERROR : Nat := 0
/-- Value of `#define ACK 0xFA`. -/
def ACK : Nat := 0xFA
/-- Value of `#define SETLEDS 0xED`. -/
def SETLEDS : Nat := 0xED
/-- Value of `#define ECHO 0xEE`. -/
def ECHO : Nat := 0xEE
/-- Value of `#define SET_TYPEMATIC_RD 0xF3`. -/
def SET_TYPEMATIC_RD : Nat := 0xF3
/-- Value of `#define SET_SCAN_CODE_SET 0xF0`. -/
def SET_SCAN_CODE_SET : Nat := 0xF0
/-- Value of `#define ENABLE 0xF4`. -/
def ENABLE : Nat := 0xF4
/-- Value of `#define DISABLE 0xF5`. -/
def DISABLE : Nat := 0xF5
/-- Value of `#define DEFAULT 0xF6`. -/
def DEFAULT : Nat := 0xF6
/-- Value of `#define RESET 0xFF`. -/
def RESET : Nat := 0xFF
/-- Value of `#define RESEND 0xFE`. -/
def RESEND : Nat := 0xFE

/-! ## Machine integer conversions -/

/-- Conversion of a Lua integer to `char` (8 bits, unsigned). -/
def toChar (x : Int) : Nat := (x % 256).toNat

/-- Conversion of a Lua integer to `unsigned int` (32 bits). -/
def toUInt (x : Int) : Nat := (x % 4294967296).toNat

/-- Subtraction `a - b` of two `unsigned int` values (both below `2^32`), which
wraps around modulo `2^32` when `b` exceeds `a`. -/
def usub (a b : Nat) : Nat := if b ≤ a then a - b else a + 4294967296 - b

/-- Embedding of `static unsigned int abs( int i )`.  The argument is the 32-bit
pattern of `i` (below `2^32`): patterns from `2^31` upwards are the negative
numbers, for which `-i` is returned as `unsigned int`; otherwise `i` itself. -/
def abs (i : Nat) : Nat :=
  if i ≥ 2147483648 then 4294967296 - i else i

/-! ## Bit-frame codec -/

/-- Loop `for ( i=0; i<8; i++ ) { if ( ( data & 1 ) == 1 ) count ++; data = data >> 1; }`
shared by `genCRC` and `checkCRC`; `n` is the number of iterations left and the
result is the final `count`. -/
def countLoop : Nat → Nat → Nat → Nat
  | 0, _, count => count
  | n + 1, data, count =>
    countLoop n (data >>> 1) (if data &&& 1 = 1 then count + 1 else count)

/-- Embedding of `static char genCRC( unsigned char data )`. -/
def genCRC (data : Nat) : Nat :=
  let count := countLoop 8 (data % 256) 0
  if count &&& 1 ≠ 1 then 1 else 0

/-- Embedding of `static char checkCRC( unsigned int data )`. -/
def checkCRC (data : Nat) : Nat :=
  let tmp := data
  let data := data >>> 1
  let data := data &&& 255
  let count := countLoop 8 data 0
  if count &&& 1 ≠ tmp &&& 512 then 1 else 0

/-- Number of 1-bits among the eight low bits of a byte. -/
def popcount8 (b : Nat) : Nat :=
  ((List.range 8).filter (fun i => b.testBit i)).length

/-! ## Pins, traces and driver state -/

/-- The four pin handles `P_CLK, P_DATA, P_CLK_PD, P_DATA_PD`. -/
inductive Pin where
  | P_CLK
  | P_DATA
  | P_CLK_PD
  | P_DATA_PD
  deriving DecidableEq, Repr

/-- Platform calls made by the send path, in program order. -/
inductive PinEvent where
  /-- Call `platform_pio_op( port, pin, PLATFORM_IO_PIN_SET )`. -/
  | pinSet (p : Pin)
  /-- Call `platform_pio_op( port, pin, PLATFORM_IO_PIN_CLEAR )`. -/
  | pinClear (p : Pin)
  /-- Call `platform_timer_delay( id, us )`. -/
  | timerDelay (id us : Nat)
  /-- Completed busy-wait `while ( getPinVal( P_CLK ) == 1 ) {}`: the clock reads low. -/
  | clockLow
  /-- Completed busy-wait `while ( getPinVal( P_CLK ) == 0 ) {}`: the clock reads high. -/
  | clockHigh
  deriving DecidableEq, Repr

/-- Link-level trace: the calls of `keyboard_write` and `keyboard_getchar`. -/
inductive LinkEvent where
  /-- A call `keyboard_write( byte )`. -/
  | tx (byte : Nat)
  /-- A call `keyboard_getchar()` that returned `value`. -/
  | rx (value : Nat)
  deriving DecidableEq, Repr

/-- Driver state and its environment.  `igStart`, `igStop`, `igParity` are the
three global `char` flags.  `rxLine t i` is the level that `getPinVal( P_DATA )`
returns in bit period `i` (the loop counter, `1..11`) of the receive number `t`
(counted from `0`); `received` counts the receives done so far.  `pins` and
`log` are the traces of platform calls and of link-level calls. -/
structure Kbd where
  igStart : Nat
  igStop : Nat
  igParity : Nat
  rxLine : Nat → Nat → Nat
  received : Nat
  pins : List PinEvent
  log : List LinkEvent

/-- Bytes handed to `keyboard_write`, in order. -/
def Kbd.written (k : Kbd) : List Nat :=
  k.log.filterMap (fun e => match e with
    | .tx b => some b
    | .rx _ => none)

/-- Values returned by `keyboard_getchar`, in order. -/
def Kbd.readValues (k : Kbd) : List Nat :=
  k.log.filterMap (fun e => match e with
    | .tx _ => none
    | .rx v => some v)

/-- Embedding of `static void setPinVal( tPin p, char val )`: the platform call made. -/
def setPinVal (p : Pin) (val : Nat) : PinEvent :=
  if val % 256 ≠ 0 then .pinSet p else .pinClear p

/-! ## Link layer: receive -/

/-- Sampling loop `for ( i=1; i<12; i++ )` of `keyboard_getchar`; `n` is the number
of iterations left, `i` the loop counter, `line i` the level read from `P_DATA`
in iteration `i`.  The two clock waits of an iteration read no data. -/
def keyboard_getchar_loop (line : Nat → Nat) : Nat → Nat → Nat → Nat
  | 0, _, data => data
  | n + 1, i, data =>
    let data := data >>> 1
    let data := if line i = 1 then data ||| (1 <<< 10) else data
    keyboard_getchar_loop line n (i + 1) data

/-- Which `return` statement of `keyboard_getchar` is taken. -/
inductive Outcome where
  /-- The `return ERROR;` of the start bit check. -/
  | startError
  /-- The `return ERROR;` of the stop bit check. -/
  | stopError
  /-- The `return ERROR;` of the parity check. -/
  | parityError
  /-- The final `return data;`. -/
  | ok (data : Nat)
  deriving DecidableEq, Repr

/-- The `char` a return statement of `keyboard_getchar` hands back. -/
def Outcome.value : Outcome → Nat
  | .ok data => data % 256
  | _ => ERROR

/-- One of the three `return ERROR;` statements was taken. -/
def Outcome.isError : Outcome → Bool
  | .ok _ => false
  | _ => true

/-- The part of `keyboard_getchar` after the sampling loop: the three checks and
the extraction of the data bits from the assembled word `data`. -/
def keyboard_getchar_checks (igStart igStop igParity data : Nat) : Outcome :=
  if data &&& 1 = 1 ∧ igStart = USE then .startError
  else if data &&& 1024 = 0 ∧ igStop = USE then .stopError
  else if checkCRC data = 0 ∧ igParity = USE then .parityError
  else
    let data := data >>> 1
    let data := data &&& 255
    .ok data

/-- The word assembled by the receive number `received + j` counted from the
current state, and the value `keyboard_getchar` returns for it. -/
def Kbd.frame (k : Kbd) (j : Nat) : Nat :=
  keyboard_getchar_loop (k.rxLine (k.received + j)) 11 1 0

/-- Which return the `j`-th receive from now takes (flags as they are now). -/
def Kbd.outcome (k : Kbd) (j : Nat) : Outcome :=
  keyboard_getchar_checks k.igStart k.igStop k.igParity (k.frame j)

/-- The value the `j`-th receive from now returns (flags as they are now). -/
def Kbd.response (k : Kbd) (j : Nat) : Nat := (k.outcome j).value

/-- Embedding of `static char keyboard_getchar( )`. -/
def keyboard_getchar (k : Kbd) : Nat × Kbd :=
  let data := keyboard_getchar_loop (k.rxLine k.received) 11 1 0
  let ret := (keyboard_getchar_checks k.igStart k.igStop k.igParity data).value
  (ret, { k with received := k.received + 1, log := k.log ++ [.rx ret] })

/-! ## Link layer: send -/

/-- Loop `for ( bit=1; bit<= 11; bit++ )` of `keyboard_write`; `n` is the number of
iterations left. -/
def keyboard_write_loop (data par : Nat) : Nat → Nat → List PinEvent
  | 0, _ => []
  | n + 1, bit =>
    [PinEvent.clockLow]
      ++ (if bit = 9 then [setPinVal .P_DATA_PD par]
          else if bit = 10 then [setPinVal .P_DATA_PD 1]
          else if bit ≠ 11 then [setPinVal .P_DATA_PD (data &&& (1 <<< (bit - 1)))]
          else [])
      ++ [PinEvent.clockHigh]
      ++ keyboard_write_loop data par n (bit + 1)

/-- Platform calls of one `keyboard_write( data )`. -/
def keyboard_write_pins (data : Nat) : List PinEvent :=
  let data := data % 256
  let par := genCRC data
  [setPinVal .P_CLK_PD 0, .timerDelay 1 120, setPinVal .P_DATA_PD 0, setPinVal .P_CLK_PD 1]
    ++ keyboard_write_loop data par 11 1

/-- Embedding of `static void keyboard_write( char data )`. -/
def keyboard_write (data : Nat) (k : Kbd) : Kbd :=
  { k with pins := k.pins ++ keyboard_write_pins data, log := k.log ++ [.tx (data % 256)] }

/-- Levels driven on the data pulldown pin by a list of platform calls, in order. -/
def dataLevels (evs : List PinEvent) : List Nat :=
  evs.filterMap (fun e => match e with
    | .pinSet .P_DATA_PD => some 1
    | .pinClear .P_DATA_PD => some 0
    | _ => none)

/-- The data line as a receiver sees it when the levels driven by
`keyboard_write( d )` are sampled one per bit period `i = 1..11`. -/
def sentLine (d : Nat) (i : Nat) : Nat :=
  (dataLevels (keyboard_write_pins d)).getD (i - 1) 0

/-! ## Configuration state and plain bindings -/

/-- Embedding of `keyboard_setflags`: three Lua integers stored into the `char` flags. -/
def keyboard_setflags (start stop parity : Int) (k : Kbd) : Kbd :=
  { k with igStart := toChar start, igStop := toChar stop, igParity := toChar parity }

/-- Embedding of `keyboard_receive`: pushes the value of `keyboard_getchar ()`. -/
def keyboard_receive (k : Kbd) : Nat × Kbd := keyboard_getchar k

/-- Embedding of `keyboard_send`: `keyboard_write( i )` for the Lua integer `i`. -/
def keyboard_send (i : Int) (k : Kbd) : Kbd := keyboard_write (toChar i) k

/-! ## Command protocol engine -/

/-- Embedding of `keyboard_setleds`.  The three Lua integers enter by their 32-bit
patterns; the `int` built from them is handed to `keyboard_write`. -/
def keyboard_setleds (num caps scroll : Int) (k : Kbd) : Kbd :=
  let i := 0
  let i := i ||| (toUInt num <<< 1) % 4294967296
  let i := i ||| (toUInt caps <<< 2) % 4294967296
  let i := i ||| toUInt scroll
  let k := keyboard_write SETLEDS k
  keyboard_write i k

/-- Value of `#define makeOnly 0xFD`. -/
def makeOnly : Nat := 0xFD
/-- Value of `#define makeBreak 0xFC`. -/
def makeBreak : Nat := 0xFC
/-- Value of `#define makeType 0xFB`. -/
def makeType : Nat := 0xFB

/-- The block "Send operation code" of `keyboard_disablekeyevents`: three
independent `if` statements. -/
def keyboard_disablekeyevents_opcode (bk tp : Int) (k : Kbd) : Kbd :=
  let k := if bk = IGNORE ∧ tp = IGNORE then keyboard_write makeOnly k else k
  let k := if bk = IGNORE ∧ tp = USE then keyboard_write makeType k else k
  let k := if tp = IGNORE ∧ bk = USE then keyboard_write makeBreak k else k
  k

/-- The loop `for ( i=0; i<len; i++ )` of `keyboard_disablekeyevents` over the
remaining key codes, followed by the code after it: a non-ACK answer returns from
the function, the end of the list sends `ECHO`. -/
def keyboard_disablekeyevents_loop : List Nat → Kbd → Kbd
  | [], k => keyboard_write ECHO k
  | c :: rest, k =>
    let k := keyboard_write c k
    let (ret, k) := keyboard_getchar k
    if ret ≠ ACK then k
    else keyboard_disablekeyevents_loop rest k

/-- Embedding of `keyboard_disablekeyevents`; `buf` is the Lua string of key codes. -/
def keyboard_disablekeyevents (buf : List Nat) (bk tp : Int) (k : Kbd) : Kbd :=
  let k := keyboard_disablekeyevents_opcode bk tp k
  let (ret, k) := keyboard_getchar k
  if ret ≠ ACK then k
  else keyboard_disablekeyevents_loop buf k

/-- Value of `#define amakeOnly 0xF9`. -/
def amakeOnly : Nat := 0xF9
/-- Value of `#define amakeBreak 0xF8`. -/
def amakeBreak : Nat := 0xF8
/-- Value of `#define amakeType 0xF7`. -/
def amakeType : Nat := 0xF7
/-- Value of `#define amakeBreakType 0xFA`. -/
def amakeBreakType : Nat := 0xFA

/-- The block "Disable something ( or not )" of `keyboard_configkeys`. -/
def keyboard_configkeys_opcode (bk tp : Int) (k : Kbd) : Kbd :=
  let k := if bk = IGNORE ∧ tp = IGNORE then keyboard_write amakeOnly k else k
  let k := if bk = IGNORE ∧ tp = USE then keyboard_write amakeType k else k
  let k := if tp = IGNORE ∧ bk = USE then keyboard_write amakeBreak k else k
  k

/-- Embedding of `keyboard_configkeys`. -/
def keyboard_configkeys (bk tp : Int) (k : Kbd) : Kbd :=
  let k := keyboard_write amakeBreakType k
  let (ret, k) := keyboard_getchar k
  if ret ≠ ACK then k
  else
    let k := keyboard_configkeys_opcode bk tp k
    let (ret, k) := keyboard_getchar k
    if ret ≠ ACK then k
    else
      let k := keyboard_write ECHO k
      (keyboard_getchar k).2

/-- The table `int rates[32]`. -/
def rates : List Nat :=
  [300, 267, 240, 218, 207, 185, 171, 160, 150, 133, 120,
   109, 100, 92, 86, 80, 75, 67, 60, 55, 50, 46, 43, 40,
   37, 33, 30, 27, 25, 23, 21, 20]

/-- The table `int delays[4]`. -/
def delays : List Nat := [250, 500, 750, 1000]

/-- The two search loops of `keyboard_setRepeatRateAndDelay`, which differ only in
the table and its length:
`for ( i=1; i<N; i++ ) { if ( abs( x - tbl[i] ) < diff ) { diff = abs( x - tbl[i] ); id = i; }
if ( abs( x - tbl[i] ) > diff ) break; }`.
`n` is the number of iterations left; the result is the final `(diff, id)`. -/
def closestLoop (tbl : List Nat) (x : Nat) : Nat → Nat → Nat → Nat → Nat × Nat
  | 0, _, diff, id => (diff, id)
  | n + 1, i, diff, id =>
    let d := abs (usub x (tbl.getD i 0))
    let diff1 := if d < diff then d else diff
    let id1 := if d < diff then i else id
    if d > diff1 then (diff1, id1)
    else closestLoop tbl x n (i + 1) diff1 id1

/-- Final value of `rateId` in `keyboard_setRepeatRateAndDelay` for the Lua integer `rate`. -/
def rateId (rate : Int) : Nat :=
  let rate := toUInt rate
  let rDiff := abs (usub rate (rates.getD 0 0))
  (closestLoop rates rate 31 1 rDiff 0).2

/-- Final value of `delayId` in `keyboard_setRepeatRateAndDelay` for the Lua integer `delay`. -/
def delayId (delay : Int) : Nat :=
  let delay := toUInt delay
  let dDiff := abs (usub delay (delays.getD 0 0))
  (closestLoop delays delay 3 1 dDiff 0).2

/-- Embedding of `keyboard_setRepeatRateAndDelay`; the result pair is the two
integers pushed on the Lua stack. -/
def keyboard_setRepeatRateAndDelay (rate delay : Int) (k : Kbd) : (Nat × Nat) × Kbd :=
  let rId := rateId rate
  let dId := delayId delay
  let cmd := rId
  let cmd := cmd ||| (dId <<< 5) % 4294967296
  let k := keyboard_write 0xF3 k
  let k := keyboard_write cmd k
  ((rates.getD rId 0, delays.getD dId 0), k)

/-- The search loop with the `break` statement removed: every table entry is
visited and the first entry with the smallest difference is kept. -/
def closestLoopFull (tbl : List Nat) (x : Nat) : Nat → Nat → Nat → Nat → Nat × Nat
  | 0, _, diff, id => (diff, id)
  | n + 1, i, diff, id =>
    let d := abs (usub x (tbl.getD i 0))
    let diff1 := if d < diff then d else diff
    let id1 := if d < diff then i else id
    closestLoopFull tbl x n (i + 1) diff1 id1

/-- Embedding of `keyboard_setScanCodeSet`. -/
def keyboard_setScanCodeSet (i : Int) (k : Kbd) : Kbd :=
  if i > 3 ∨ i < 1 then k
  else
    let k := keyboard_write SET_SCAN_CODE_SET k
    let (ret, k) := keyboard_getchar k
    if ret ≠ ACK then k
    else keyboard_write (toChar i) k

/-- Embedding of `keyboard_enable`. -/
def keyboard_enable (k : Kbd) : Kbd := keyboard_write ENABLE k

/-- Embedding of `keyboard_disable`. -/
def keyboard_disable (k : Kbd) : Kbd := keyboard_write DISABLE k

/-- Embedding of `keyboard_default`. -/
def keyboard_default (k : Kbd) : Kbd := keyboard_write DEFAULT k

/-- Embedding of `keyboard_reset`.  The first component lists the integers the
function pushes on the Lua stack: none, the value received is dropped
(`return 0`). -/
def keyboard_reset (k : Kbd) : List Nat × Kbd :=
  let k := keyboard_write RESET k
  let r := keyboard_getchar k
  ([], r.2)

/-- Embedding of `keyboard_resend`.  The first component lists the integers the
function pushes on the Lua stack: the value received (`return 1`). -/
def keyboard_resend (k : Kbd) : List Nat × Kbd :=
  let k := keyboard_write RESEND k
  let r := keyboard_getchar k
  ([r.1], r.2)

/-- Embedding of `keyboard_echo`.  The first component lists the integers the
function pushes on the Lua stack: the value received (`return 1`). -/
def keyboard_echo (k : Kbd) : List Nat × Kbd :=
  let k := keyboard_write ECHO k
  let r := keyboard_getchar k
  ([r.1], r.2)

/-- A state with all three checks enabled and empty traces in which the receive
number `t` samples, LSB first, the bits of the word `frames[t]` (an all-zero
line once the list is exhausted); used to evaluate the driver on concrete inputs. -/
def sampleKbd (frames : List Nat) : Kbd :=
  { igStart := USE, igStop := USE, igParity := USE,
    rxLine := fun t i => ((frames.getD t 0) >>> (i - 1)) &&& 1,
    received := 0, pins := [], log := [] }

/-- A state with all three checks enabled and empty traces whose data line
carries, in every receive, the levels that `keyboard_write( d )` drives. -/
def loopbackKbd (d : Nat) : Kbd :=
  { igStart := USE, igStop := USE, igParity := USE,
    rxLine := fun _ => sentLine d,
    received := 0, pins := [], log := [] }

/-! ## Specification-side definitions -/

/-- Final value of `rateId` when the rate loop runs without its `break`. -/
def rateIdFull (rate : Int) : Nat :=
  let rate := toUInt rate
  let rDiff := abs (usub rate (rates.getD 0 0))
  (closestLoopFull rates rate 31 1 rDiff 0).2

/-- Final value of `delayId` when the delay loop runs without its `break`. -/
def delayIdFull (delay : Int) : Nat :=
  let delay := toUInt delay
  let dDiff := abs (usub delay (delays.getD 0 0))
  (closestLoopFull delays delay 3 1 dDiff 0).2

/-- The index `i` is the lowest index among the first `len` entries of `tbl` whose
entry has the smallest absolute difference to the requested value `x`. -/
def IsFirstClosest (tbl : List Nat) (len : Nat) (x : Int) (i : Nat) : Prop :=
  i < len ∧
  (∀ j, j < len → Int.natAbs (x - (tbl.getD i 0 : Nat)) ≤ Int.natAbs (x - (tbl.getD j 0 : Nat))) ∧
  (∀ j, j < i → Int.natAbs (x - (tbl.getD i 0 : Nat)) < Int.natAbs (x - (tbl.getD j 0 : Nat)))

instance (tbl : List Nat) (len : Nat) (x : Int) (i : Nat) :
    Decidable (IsFirstClosest tbl len x i) := by
  unfold IsFirstClosest
  infer_instance

/-- Bit `i` of the number `d`. -/
def bitOf (d i : Nat) : Nat := d / 2 ^ i % 2

/-- The platform call that puts the data pulldown pin at level `b`: set for `1`,
cleared for `0`. -/
def driveData (b : Nat) : PinEvent :=
  if b = 1 then .pinSet .P_DATA_PD else .pinClear .P_DATA_PD

/-- One clock period of a send in which the data pulldown is driven to level `b`
while the clock is low. -/
def sendPeriod (b : Nat) : List PinEvent := [.clockLow, driveData b, .clockHigh]

/-- The platform calls of a send of the byte `d` as the send description lists
them: request to send, eight data periods LSB first, the parity period, the
stop period, and the ACK period in which nothing is driven. -/
def expectedWritePins (d : Nat) : List PinEvent :=
  [.pinClear .P_CLK_PD, .timerDelay 1 120, .pinClear .P_DATA_PD, .pinSet .P_CLK_PD]
    ++ sendPeriod (bitOf d 0) ++ sendPeriod (bitOf d 1) ++ sendPeriod (bitOf d 2)
    ++ sendPeriod (bitOf d 3) ++ sendPeriod (bitOf d 4) ++ sendPeriod (bitOf d 5)
    ++ sendPeriod (bitOf d 6) ++ sendPeriod (bitOf d 7)
    ++ sendPeriod (genCRC d) ++ sendPeriod 1 ++ [.clockLow, .clockHigh]

/-- The bit a data-line sample stands for: `1` when the pin reads `1`, else `0`. -/
def sampleBit (v : Nat) : Nat := if v = 1 then 1 else 0

/-! ## Bit-frame codec: properties -/

/-- C1: for every byte `b`, `genCRC b` is `1` exactly when the number of set bits
of `b` is even and `0` otherwise, so the data bits together with the parity bit
always hold an odd number of ones. -/
theorem genCRC_odd_parity (b : Nat) (hb : b < 256) :
    genCRC b = (if popcount8 b % 2 = 0 then 1 else 0) ∧
      (genCRC b = 1 ↔ popcount8 b % 2 = 0) ∧
      (popcount8 b + genCRC b) % 2 = 1 := by
  revert b
  set_option maxRecDepth 100000 in decide

/-- Instance of C1 at the byte `0xFA` (six set bits, parity bit `1`). -/
theorem genCRC_odd_parity_witness :
    genCRC 0xFA = (if popcount8 0xFA % 2 = 0 then 1 else 0) ∧
      (genCRC 0xFA = 1 ↔ popcount8 0xFA % 2 = 0) ∧
      (popcount8 0xFA + genCRC 0xFA) % 2 = 1 :=
  genCRC_odd_parity 0xFA (by decide)

/-- C2 (code evaluated at a failing frame): the frame `1538` has data bits `1`
(one set bit, so the odd-parity bit is `0`) and parity bit `1`; the parity bit
disagrees with `genCRC`, yet `checkCRC` returns non-zero. -/
theorem checkCRC_accepts_wrong_parity :
    (1538 >>> 1) &&& 255 = 1 ∧ (1538 >>> 9) &&& 1 = 1 ∧ genCRC ((1538 >>> 1) &&& 255) = 0 ∧
      checkCRC 1538 = 1 := by
  decide

/-- C3: for every byte `d`, sampling the levels that `keyboard_write( d )` drives
on the data line assembles the frame with start bit `0`, the bits of `d` in bits
`1..8`, `genCRC d` in bit `9` and stop bit `1` in bit `10`; with start, stop and
parity validation enabled `keyboard_getchar` passes every check on it and
returns `d`. -/
theorem send_receive_roundtrip (d : Nat) (hd : d < 256) (k : Kbd)
    (hline : k.rxLine k.received = sentLine d)
    (hstart : k.igStart = USE) (hstop : k.igStop = USE) (hparity : k.igParity = USE) :
    k.frame 0 = 2 * d + 512 * genCRC d + 1024 ∧
      k.outcome 0 = Outcome.ok d ∧
      (keyboard_getchar k).1 = d := by
  have key : ∀ d, d < 256 →
      keyboard_getchar_loop (sentLine d) 11 1 0 = 2 * d + 512 * genCRC d + 1024 ∧
      keyboard_getchar_checks USE USE USE (keyboard_getchar_loop (sentLine d) 11 1 0)
        = Outcome.ok d := by
    decide!
  obtain ⟨h1, h2⟩ := key d hd
  refine ⟨?_, ?_, ?_⟩
  · simp only [Kbd.frame, Nat.add_zero, hline, h1]
  · simp only [Kbd.outcome, Kbd.frame, Nat.add_zero, hline, hstart, hstop, hparity, h2]
  · simp only [keyboard_getchar, hline, hstart, hstop, hparity, h2, Outcome.value]
    omega

/-- Instance of C3 at the byte `0xFA`, received from the looped-back data line. -/
theorem send_receive_roundtrip_witness :
    (loopbackKbd 0xFA).frame 0 = 2036 ∧ (keyboard_getchar (loopbackKbd 0xFA)).1 = 0xFA := by
  have h := send_receive_roundtrip 0xFA (by decide) (loopbackKbd 0xFA) rfl rfl rfl rfl
  exact ⟨h.1.trans (by decide), h.2.2⟩

/-- C4 (code evaluated at a failing frame): for the data byte `1` the odd-parity
bit is `0`; the frame `1538` carries start bit `0`, data `1`, the corrupted parity
bit `1` and stop bit `1`.  With parity validation enabled `keyboard_getchar`
takes the final `return data;` and hands back `1` instead of failing. -/
theorem corrupted_parity_accepted :
    genCRC 1 = 0 ∧ 1538 = 2 * 1 + 512 * (1 - genCRC 1) + 1024 ∧
      (sampleKbd [1538]).igParity = USE ∧
      (sampleKbd [1538]).frame 0 = 1538 ∧
      (sampleKbd [1538]).outcome 0 = Outcome.ok 1 ∧
      (keyboard_getchar (sampleKbd [1538])).1 = 1 := by
  decide

/-- Shape of the three checks of `keyboard_getchar` when the parity check is
disabled, for arbitrary start and stop conditions `A` and `B`. -/
theorem checks_shape (f igStart igStop igParity : Nat) (hp : igParity ≠ USE)
    (A B : Prop) [Decidable A] [Decidable B] (o : Outcome)
    (ho : o = if A ∧ igStart = USE then Outcome.startError
          else if B ∧ igStop = USE then Outcome.stopError
          else if checkCRC f = 0 ∧ igParity = USE then Outcome.parityError
          else Outcome.ok ((f >>> 1) &&& 255)) :
    (o.isError = true ↔ (igStart = USE ∧ A) ∨ (igStop = USE ∧ B)) ∧
      (o.isError = false → o = Outcome.ok ((f >>> 1) &&& 255)) := by
  subst ho
  by_cases c1 : A ∧ igStart = USE
  · rw [if_pos c1]
    exact ⟨⟨fun _ => Or.inl ⟨c1.2, c1.1⟩, fun _ => rfl⟩, fun h => by cases h⟩
  · rw [if_neg c1]
    by_cases c2 : B ∧ igStop = USE
    · rw [if_pos c2]
      exact ⟨⟨fun _ => Or.inr ⟨c2.2, c2.1⟩, fun _ => rfl⟩, fun h => by cases h⟩
    · rw [if_neg c2, if_neg (fun h => hp h.2)]
      refine ⟨⟨fun h => (by cases h), ?_⟩, fun _ => rfl⟩
      rintro (⟨h1, h2⟩ | ⟨h1, h2⟩)
      · exact absurd ⟨h2, h1⟩ c1
      · exact absurd ⟨h2, h1⟩ c2

/-- Bit tests used by the checks of `keyboard_getchar`, on 11-bit words. -/
theorem frame_bit_tests : ∀ f, f < 2048 →
    ((f &&& 1 = 1 ↔ f.testBit 0 = true) ∧ (f &&& 1024 = 0 ↔ f.testBit 10 = false) ∧
      (f >>> 1) &&& 255 = f / 2 % 256) := by
  decide!

/-- C5: with parity validation disabled, `keyboard_getchar` takes an error return
on the assembled frame `f` exactly when (start validation is enabled and bit 0
of `f` is 1) or (stop validation is enabled and bit 10 of `f` is 0); otherwise it
returns the byte `(f >> 1) & 255`, which is below 256.  With all three checks
disabled every frame is accepted. -/
theorem getchar_start_stop_checks (f igStart igStop igParity : Nat)
    (hf : f < 2048) (hp : igParity ≠ USE) :
    ((keyboard_getchar_checks igStart igStop igParity f).isError = true ↔
        (igStart = USE ∧ f.testBit 0 = true) ∨ (igStop = USE ∧ f.testBit 10 = false)) ∧
      ((keyboard_getchar_checks igStart igStop igParity f).isError = false →
        keyboard_getchar_checks igStart igStop igParity f = Outcome.ok ((f >>> 1) &&& 255) ∧
        (keyboard_getchar_checks igStart igStop igParity f).value = (f >>> 1) &&& 255) ∧
      (f >>> 1) &&& 255 = f / 2 % 256 ∧ (f >>> 1) &&& 255 < 256 ∧
      (igStart ≠ USE → igStop ≠ USE →
        keyboard_getchar_checks igStart igStop igParity f = Outcome.ok ((f >>> 1) &&& 255)) := by
  obtain ⟨h0, h10, hb⟩ := frame_bit_tests f hf
  have hlt : (f >>> 1) &&& 255 < 256 := by rw [hb]; omega
  have hmod : ((f >>> 1) &&& 255) % 256 = (f >>> 1) &&& 255 := Nat.mod_eq_of_lt hlt
  have hmain := checks_shape f igStart igStop igParity hp (f &&& 1 = 1) (f &&& 1024 = 0)
    (keyboard_getchar_checks igStart igStop igParity f) rfl
  refine ⟨?_, ?_, hb, hlt, ?_⟩
  · rw [← h0, ← h10]
    exact hmain.1
  · intro h
    refine ⟨hmain.2 h, ?_⟩
    rw [hmain.2 h]
    exact hmod
  · intro hs ht
    unfold keyboard_getchar_checks
    rw [if_neg (fun h => hs h.2), if_neg (fun h => ht h.2), if_neg (fun h => hp h.2)]

/-- Instance of C5: the all-ones frame is refused at the start bit when start
validation is enabled, and accepted as the byte 255 when it is disabled. -/
theorem getchar_start_stop_checks_witness :
    (keyboard_getchar_checks USE USE IGNORE 2047).isError = true ∧
      keyboard_getchar_checks IGNORE USE IGNORE 2047 = Outcome.ok 255 := by
  have h := getchar_start_stop_checks 2047 USE USE IGNORE (by decide) (by decide)
  have h2 := getchar_start_stop_checks 2047 IGNORE USE IGNORE (by decide) (by decide)
  refine ⟨h.1.2 (Or.inl ⟨rfl, by decide⟩), ?_⟩
  have h3 := h2.2.1 (by decide)
  exact h3.1

/-! ## Typematic rate and delay selection -/

/-- Conversion to `unsigned int` keeps a natural number below `2^31`. -/
theorem toUInt_natCast (n : Nat) (h : n < 2147483648) : toUInt (n : Int) = n := by
  unfold toUInt
  omega

/-- For operands below `2^31`, `abs( a - b )` is the absolute difference. -/
theorem abs_usub (n r : Nat) (hn : n < 2147483648) (hr : r < 2147483648) :
    abs (usub n r) = Int.natAbs ((n : Int) - (r : Int)) := by
  unfold abs usub
  split <;> split <;> omega

/-- For `r ≤ n < 2^31`, `abs( n - r )` is `n - r`. -/
theorem abs_usub_ge (n r : Nat) (hn : n < 2147483648) (hr : r ≤ n) :
    abs (usub n r) = n - r := by
  rw [abs_usub n r hn (by omega)]
  omega

/-- The loop without `break` keeps `(diff, id)` when no later entry is closer. -/
theorem closestLoopFull_keep (tbl : List Nat) (x : Nat) :
    ∀ n i diff id, (∀ j, i ≤ j → j < i + n → diff ≤ abs (usub x (tbl.getD j 0))) →
      closestLoopFull tbl x n i diff id = (diff, id) := by
  intro n
  induction n with
  | zero => intro i diff id _; rfl
  | succ n ih =>
    intro i diff id h
    have hi := h i (Nat.le_refl i) (by omega)
    rw [closestLoopFull]
    simp only [if_neg (Nat.not_lt.mpr hi)]
    exact ih (i + 1) diff id (fun j h1 h2 => h j (by omega) (by omega))

/-- Every entry of `rates` is at most 300. -/
theorem rates_le : ∀ j, j < 32 → rates.getD j 0 ≤ 300 := by decide

/-- Rate requests up to 300, checked one by one. -/
theorem rate_small : ∀ n, n < 301 →
    IsFirstClosest rates 32 (n : Nat) (closestLoop rates n 31 1 (abs (usub n 300)) 0).2 ∧
    closestLoop rates n 31 1 (abs (usub n 300)) 0 = closestLoopFull rates n 31 1 (abs (usub n 300)) 0 := by
  decide!

/-- Delay requests up to 1000, checked one by one. -/
theorem delay_small : ∀ n, n < 1001 →
    IsFirstClosest delays 4 (n : Nat) (closestLoop delays n 3 1 (abs (usub n 250)) 0).2 ∧
    closestLoop delays n 3 1 (abs (usub n 250)) 0 = closestLoopFull delays n 3 1 (abs (usub n 250)) 0 := by
  decide!

/-- Rate requests from 300 upwards: both loops stay at index 0. -/
theorem rate_large (n : Nat) (h : 300 ≤ n) (hn : n < 2147483648) :
    closestLoop rates n 31 1 (abs (usub n 300)) 0 = (n - 300, 0) ∧
    closestLoopFull rates n 31 1 (abs (usub n 300)) 0 = (n - 300, 0) := by
  have h0 : abs (usub n 300) = n - 300 := abs_usub_ge n 300 hn h
  have h1 : abs (usub n 267) = n - 267 := abs_usub_ge n 267 hn (by omega)
  constructor
  · rw [h0, closestLoop]
    have : rates.getD 1 0 = 267 := rfl
    have c : ¬ (n - 267 < n - 300) := by omega
    have c2 : n - 267 > n - 300 := by omega
    simp only [this, h1, if_neg c, if_pos c2]
  · rw [h0]
    apply closestLoopFull_keep
    intro j _ hj
    have := rates_le j (by omega)
    rw [abs_usub_ge n _ hn (by omega)]
    omega

/-- Delay requests from 1000 upwards: both loops end at index 3. -/
theorem delay_large (n : Nat) (h : 1000 ≤ n) (hn : n < 2147483648) :
    closestLoop delays n 3 1 (abs (usub n 250)) 0 = (n - 1000, 3) ∧
    closestLoopFull delays n 3 1 (abs (usub n 250)) 0 = (n - 1000, 3) := by
  have h0 : abs (usub n 250) = n - 250 := abs_usub_ge n 250 hn (by omega)
  have h1 : abs (usub n 500) = n - 500 := abs_usub_ge n 500 hn (by omega)
  have h2 : abs (usub n 750) = n - 750 := abs_usub_ge n 750 hn (by omega)
  have h3 : abs (usub n 1000) = n - 1000 := abs_usub_ge n 1000 hn (by omega)
  have e1 : delays.getD 1 0 = 500 := rfl
  have e2 : delays.getD 2 0 = 750 := rfl
  have e3 : delays.getD 3 0 = 1000 := rfl
  have c1 : n - 500 < n - 250 := by omega
  have c2 : n - 750 < n - 500 := by omega
  have c3 : n - 1000 < n - 750 := by omega
  constructor
  · rw [h0]
    simp only [closestLoop, e1, e2, e3, h1, h2, h3, if_pos c1, if_pos c2, if_pos c3,
      gt_iff_lt, lt_self_iff_false, if_false]
  · rw [h0]
    simp only [closestLoopFull, e1, e2, e3, h1, h2, h3, if_pos c1, if_pos c2, if_pos c3]

/-- Rate selection for every request below `2^31`. -/
theorem rate_all (n : Nat) (hn : n < 2147483648) :
    IsFirstClosest rates 32 (n : Nat) (rateId n) ∧ rateId n = rateIdFull n := by
  have e0 : rates.getD 0 0 = 300 := rfl
  simp only [rateId, rateIdFull, toUInt_natCast n hn, e0]
  by_cases h : n < 301
  · obtain ⟨a, b⟩ := rate_small n h
    exact ⟨a, by rw [b]⟩
  · obtain ⟨a, b⟩ := rate_large n (by omega) hn
    rw [a, b]
    refine ⟨⟨by omega, ?_, ?_⟩, rfl⟩
    · intro j hj
      have := rates_le j hj
      simp only [e0]
      omega
    · intro j hj
      omega

/-- Delay selection for every request below `2^31`. -/
theorem delay_all (n : Nat) (hn : n < 2147483648) :
    IsFirstClosest delays 4 (n : Nat) (delayId n) ∧ delayId n = delayIdFull n := by
  have e0 : delays.getD 0 0 = 250 := rfl
  simp only [delayId, delayIdFull, toUInt_natCast n hn, e0]
  by_cases h : n < 1001
  · obtain ⟨a, b⟩ := delay_small n h
    exact ⟨a, by rw [b]⟩
  · obtain ⟨a, b⟩ := delay_large n (by omega) hn
    rw [a, b]
    have e3 : delays.getD 3 0 = 1000 := rfl
    refine ⟨⟨by omega, ?_, ?_⟩, rfl⟩
    · intro j hj
      simp only [e3]
      interval_cases j <;> simp only [delays, List.getD_cons_zero, List.getD_cons_succ] <;> omega
    · intro j hj
      simp only [e3]
      interval_cases j <;> simp only [delays, List.getD_cons_zero, List.getD_cons_succ] <;> omega

/-- The index found by the search loop is below the loop bound. -/
theorem closestLoop_snd_lt (tbl : List Nat) (x : Nat) :
    ∀ n i diff id, id < i → (closestLoop tbl x n i diff id).2 < i + n := by
  intro n
  induction n with
  | zero => intro i diff id h; simpa [closestLoop] using h
  | succ n ih =>
    intro i diff id h
    rw [closestLoop]
    by_cases h1 : abs (usub x (tbl.getD i 0)) < diff
    · simp only [if_pos h1, gt_iff_lt, lt_self_iff_false, if_false]
      have := ih (i + 1) (abs (usub x (tbl.getD i 0))) i (by omega)
      omega
    · simp only [if_neg h1]
      by_cases h2 : abs (usub x (tbl.getD i 0)) > diff
      · simp only [if_pos h2]
        omega
      · simp only [if_neg h2]
        have := ih (i + 1) diff id (by omega)
        omega

/-- The rate index is in `0..31` for every request. -/
theorem rateId_lt (rate : Int) : rateId rate < 32 :=
  closestLoop_snd_lt rates (toUInt rate) 31 1 _ 0 (by omega)

/-- The delay index is in `0..3` for every request. -/
theorem delayId_lt (delay : Int) : delayId delay < 4 :=
  closestLoop_snd_lt delays (toUInt delay) 3 1 _ 0 (by omega)

/-- The control byte built from in-range indices fits in 7 bits and determines them. -/
theorem cmd_byte : ∀ r, r < 32 → ∀ d, d < 4 →
    ((r ||| (d <<< 5) % 4294967296) % 256 = r ||| (d <<< 5) ∧ r ||| (d <<< 5) < 128 ∧
      (r ||| (d <<< 5)) &&& 31 = r ∧ (r ||| (d <<< 5)) >>> 5 = d) := by
  decide

/-- In-range look-ups of `rates` are entries of the table. -/
theorem rates_mem : ∀ r, r < 32 → rates.getD r 0 ∈ rates := by decide

/-- In-range look-ups of `delays` are entries of the table. -/
theorem delays_mem : ∀ d, d < 4 → delays.getD d 0 ∈ delays := by decide

/-- C8: `keyboard_setRepeatRateAndDelay` writes the two bytes `0xF3` and
`rateId | (delayId << 5)`, receives nothing, and returns the table entries
`(rates[rateId], delays[delayId])` for the same indices: values of the two
tables, whatever was requested. -/
theorem setRepeatRateAndDelay_effect (rate delay : Int) (k : Kbd) :
    (keyboard_setRepeatRateAndDelay rate delay k).2.log =
        k.log ++ [LinkEvent.tx 0xF3, LinkEvent.tx (rateId rate ||| (delayId delay <<< 5))] ∧
      (keyboard_setRepeatRateAndDelay rate delay k).2.received = k.received ∧
      (keyboard_setRepeatRateAndDelay rate delay k).1 =
        (rates.getD (rateId rate) 0, delays.getD (delayId delay) 0) ∧
      rateId rate < 32 ∧ delayId delay < 4 ∧
      (keyboard_setRepeatRateAndDelay rate delay k).1.1 ∈ rates ∧
      (keyboard_setRepeatRateAndDelay rate delay k).1.2 ∈ delays ∧
      (keyboard_setRepeatRateAndDelay 1000 0 k).1 = (300, 250) := by
  have hr := rateId_lt rate
  have hd := delayId_lt delay
  have hc := (cmd_byte _ hr _ hd).1
  refine ⟨?_, rfl, rfl, hr, hd, rates_mem _ hr, delays_mem _ hd, ?_⟩
  · show k.log ++ [LinkEvent.tx (0xF3 % 256)] ++
      [LinkEvent.tx ((rateId rate ||| (delayId delay <<< 5) % 4294967296) % 256)] = _
    rw [hc]
    simp
  · have h1 : rateId 1000 = 0 := by decide
    have h2 : delayId 0 = 0 := by decide
    show (rates.getD (rateId 1000) 0, delays.getD (delayId 0) 0) = _
    rw [h1, h2]
    rfl

/-- C6: for non-negative 32-bit requests, `keyboard_setRepeatRateAndDelay` selects
the lowest index of `rates` (32 entries) with the smallest `|rate - rates[i]|`
and the lowest index of `delays` (4 entries) with the smallest
`|delay - delays[j]|`, and returns the two table entries at those indices. -/
theorem typematic_selection (rate delay : Int) (k : Kbd)
    (hr : 0 ≤ rate) (hr2 : rate < 2147483648) (hd : 0 ≤ delay) (hd2 : delay < 2147483648) :
    IsFirstClosest rates 32 rate (rateId rate) ∧
      IsFirstClosest delays 4 delay (delayId delay) ∧
      (keyboard_setRepeatRateAndDelay rate delay k).1 =
        (rates.getD (rateId rate) 0, delays.getD (delayId delay) 0) := by
  lift rate to ℕ using hr
  lift delay to ℕ using hd
  exact ⟨(rate_all rate (by omega)).1, (delay_all delay (by omega)).1, rfl⟩

/-- Instance of C6: the requests `(300, 250)` yield `(300, 250)`; rate `0` yields
`20`; delay `600` yields `500`. -/
theorem typematic_selection_witness :
    (keyboard_setRepeatRateAndDelay 300 250 (sampleKbd [])).1 = (300, 250) ∧
      (keyboard_setRepeatRateAndDelay 0 600 (sampleKbd [])).1 = (20, 500) ∧
      IsFirstClosest rates 32 0 (rateId 0) ∧ IsFirstClosest delays 4 600 (delayId 600) := by
  have h := typematic_selection 0 600 (sampleKbd []) (by decide) (by decide) (by decide)
    (by decide)
  have h2 := typematic_selection 300 250 (sampleKbd []) (by decide) (by decide) (by decide)
    (by decide)
  refine ⟨h2.2.2.trans (by decide), h.2.2.trans (by decide), h.1, h.2.1⟩

/-- C7: for non-negative 32-bit requests the index found by the loop that breaks
as soon as the difference exceeds the best so far equals the index found by the
same loop without the `break`, for the rate table and for the delay table. -/
theorem early_exit_is_optimisation (rate delay : Int)
    (hr : 0 ≤ rate) (hr2 : rate < 2147483648) (hd : 0 ≤ delay) (hd2 : delay < 2147483648) :
    rateId rate = rateIdFull rate ∧ delayId delay = delayIdFull delay := by
  lift rate to ℕ using hr
  lift delay to ℕ using hd
  exact ⟨(rate_all rate (by omega)).2, (delay_all delay (by omega)).2⟩

/-- Instance of C7: the request `(229, 600)`, where rate 229 is equally far from
the entries 240 and 218. -/
theorem early_exit_is_optimisation_witness :
    rateId 229 = rateIdFull 229 ∧ delayId 600 = delayIdFull 600 ∧ rateIdFull 229 = 2 ∧
      delayIdFull 600 = 1 := by
  have h := early_exit_is_optimisation 229 600 (by decide) (by decide) (by decide) (by decide)
  exact ⟨h.1, h.2, by decide, by decide⟩

/-! ## Command sequences -/

/-- Bytes written after one more `keyboard_write`. -/
theorem written_write (d : Nat) (k : Kbd) :
    (keyboard_write d k).written = k.written ++ [d % 256] := by
  simp [keyboard_write, Kbd.written, List.filterMap_append]

/-- A `keyboard_write` receives nothing. -/
theorem received_write (d : Nat) (k : Kbd) : (keyboard_write d k).received = k.received := rfl

/-- A `keyboard_write` does not change the coming responses. -/
theorem response_write (d : Nat) (k : Kbd) (j : Nat) :
    (keyboard_write d k).response j = k.response j := rfl

/-- The value `keyboard_getchar` returns is the next response. -/
theorem getchar_fst (k : Kbd) : (keyboard_getchar k).1 = k.response 0 := rfl

/-- Link trace after one `keyboard_getchar`. -/
theorem getchar_log (k : Kbd) :
    (keyboard_getchar k).2.log = k.log ++ [LinkEvent.rx (k.response 0)] := rfl

/-- A `keyboard_getchar` writes nothing. -/
theorem written_getchar (k : Kbd) : (keyboard_getchar k).2.written = k.written := by
  simp [keyboard_getchar, Kbd.written, List.filterMap_append]

/-- A `keyboard_getchar` is one receive. -/
theorem received_getchar (k : Kbd) : (keyboard_getchar k).2.received = k.received + 1 := rfl

/-- After a `keyboard_getchar` the coming responses shift by one. -/
theorem response_getchar (k : Kbd) (j : Nat) :
    (keyboard_getchar k).2.response j = k.response (j + 1) := by
  have h : k.received + 1 + j = k.received + (j + 1) := by omega
  simp only [keyboard_getchar, Kbd.response, Kbd.outcome, Kbd.frame, h]

/-- One iteration of the key code loop. -/
theorem disablekeyevents_loop_cons (c : Nat) (rest : List Nat) (k : Kbd) :
    keyboard_disablekeyevents_loop (c :: rest) k =
      if (keyboard_getchar (keyboard_write c k)).1 ≠ ACK then (keyboard_getchar (keyboard_write c k)).2
      else keyboard_disablekeyevents_loop rest (keyboard_getchar (keyboard_write c k)).2 := rfl

/-- Control flow of `keyboard_disablekeyevents` after the operation code. -/
theorem disablekeyevents_eq (buf : List Nat) (bk tp : Int) (k : Kbd) :
    keyboard_disablekeyevents buf bk tp k =
      if (keyboard_getchar (keyboard_disablekeyevents_opcode bk tp k)).1 ≠ ACK
      then (keyboard_getchar (keyboard_disablekeyevents_opcode bk tp k)).2
      else keyboard_disablekeyevents_loop buf
        (keyboard_getchar (keyboard_disablekeyevents_opcode bk tp k)).2 := rfl

/-- Sending the operation code does not change the coming responses. -/
theorem response_opcode (bk tp : Int) (k : Kbd) (j : Nat) :
    (keyboard_disablekeyevents_opcode bk tp k).response j = k.response j := by
  unfold keyboard_disablekeyevents_opcode
  split_ifs <;> rfl

/-- Sending the operation code receives nothing. -/
theorem received_opcode (bk tp : Int) (k : Kbd) :
    (keyboard_disablekeyevents_opcode bk tp k).received = k.received := by
  unfold keyboard_disablekeyevents_opcode
  split_ifs <;> rfl

/-- Key code loop with a first non-ACK answer after key code `m + 1`. -/
theorem loop_abort : ∀ (buf : List Nat) (k : Kbd) (m : Nat), (∀ c ∈ buf, c < 256) →
    m < buf.length → (∀ j, j < m → k.response j = ACK) → k.response m ≠ ACK →
    (keyboard_disablekeyevents_loop buf k).written = k.written ++ buf.take (m + 1) ∧
      (keyboard_disablekeyevents_loop buf k).received = k.received + (m + 1) := by
  intro buf
  induction buf with
  | nil => intro k m _ hm; simp at hm
  | cons c rest ih =>
    intro k m hbuf hm hack hnack
    have hc : c % 256 = c := Nat.mod_eq_of_lt (hbuf c (List.mem_cons_self c rest))
    rw [disablekeyevents_loop_cons, getchar_fst, response_write]
    cases m with
    | zero =>
      rw [if_pos hnack, written_getchar, written_write, received_getchar, received_write, hc]
      simp
    | succ m =>
      have h0 : k.response 0 = ACK := hack 0 (by omega)
      rw [if_neg (by simpa using h0)]
      have := ih (keyboard_getchar (keyboard_write c k)).2 m
        (fun x hx => hbuf x (List.mem_cons_of_mem c hx))
        (by simpa using hm)
        (fun j hj => by
          rw [response_getchar, response_write]
          exact hack (j + 1) (by omega))
        (by rw [response_getchar, response_write]; exact hnack)
      rw [this.1, this.2, written_getchar, written_write, received_getchar, received_write, hc]
      constructor
      · simp
      · omega

/-- Key code loop when every answer is ACK. -/
theorem loop_complete : ∀ (buf : List Nat) (k : Kbd), (∀ c ∈ buf, c < 256) →
    (∀ j, j < buf.length → k.response j = ACK) →
    (keyboard_disablekeyevents_loop buf k).written = k.written ++ buf ++ [ECHO] ∧
      (keyboard_disablekeyevents_loop buf k).received = k.received + buf.length := by
  intro buf
  induction buf with
  | nil =>
    intro k _ _
    constructor
    · show (keyboard_write ECHO k).written = _
      rw [written_write]
      simp [ECHO]
    · rfl
  | cons c rest ih =>
    intro k hbuf hack
    have hc : c % 256 = c := Nat.mod_eq_of_lt (hbuf c (List.mem_cons_self c rest))
    have h0 : k.response 0 = ACK := hack 0 (by simp)
    rw [disablekeyevents_loop_cons, getchar_fst, response_write, if_neg (by simpa using h0)]
    have := ih (keyboard_getchar (keyboard_write c k)).2
      (fun x hx => hbuf x (List.mem_cons_of_mem c hx))
      (fun j hj => by
        rw [response_getchar, response_write]
        exact hack (j + 1) (by simpa using hj))
    rw [this.1, this.2, written_getchar, written_write, received_getchar, received_write, hc]
    constructor
    · simp
    · simp only [List.length_cons]; omega

/-- C9: abort propagation in `keyboard_disablekeyevents`.  Response `0` follows the
operation selector and response `m` follows key code `k_m`.  If the first
non-ACK response is response `m`, the bytes written are the selector followed
by `k_1..k_m` and nothing else (no later key code, no `ECHO`); if all responses
are ACK they are the selector, all key codes and `ECHO`.  For the three table
entries the selector is the single byte `0xFD`, `0xFB` or `0xFC`. -/
theorem disablekeyevents_abort (buf : List Nat) (bk tp : Int) (k : Kbd)
    (hbuf : ∀ c ∈ buf, c < 256) :
    (∀ m, m ≤ buf.length → (∀ j, j < m → k.response j = ACK) → k.response m ≠ ACK →
        (keyboard_disablekeyevents buf bk tp k).written =
          (keyboard_disablekeyevents_opcode bk tp k).written ++ buf.take m ∧
        (keyboard_disablekeyevents buf bk tp k).received = k.received + (m + 1)) ∧
      ((∀ j, j ≤ buf.length → k.response j = ACK) →
        (keyboard_disablekeyevents buf bk tp k).written =
          (keyboard_disablekeyevents_opcode bk tp k).written ++ buf ++ [ECHO] ∧
        (keyboard_disablekeyevents buf bk tp k).received = k.received + (buf.length + 1)) ∧
      (bk = IGNORE ∧ tp = IGNORE →
        (keyboard_disablekeyevents_opcode bk tp k).written = k.written ++ [0xFD]) ∧
      (bk = IGNORE ∧ tp = USE →
        (keyboard_disablekeyevents_opcode bk tp k).written = k.written ++ [0xFB]) ∧
      (bk = USE ∧ tp = IGNORE →
        (keyboard_disablekeyevents_opcode bk tp k).written = k.written ++ [0xFC]) := by
  refine ⟨?_, ?_, ?_, ?_, ?_⟩
  · intro m hm hack hnack
    rw [disablekeyevents_eq, getchar_fst, response_opcode]
    cases m with
    | zero =>
      rw [if_pos hnack, written_getchar, received_getchar, received_opcode]
      simp
    | succ m =>
      have h0 : k.response 0 = ACK := hack 0 (by omega)
      rw [if_neg (by simpa using h0)]
      have := loop_abort buf (keyboard_getchar (keyboard_disablekeyevents_opcode bk tp k)).2 m
        hbuf (by omega)
        (fun j hj => by
          rw [response_getchar, response_opcode]
          exact hack (j + 1) (by omega))
        (by rw [response_getchar, response_opcode]; exact hnack)
      rw [this.1, this.2, written_getchar, received_getchar, received_opcode]
      exact ⟨rfl, by omega⟩
  · intro hack
    have h0 : k.response 0 = ACK := hack 0 (by omega)
    rw [disablekeyevents_eq, getchar_fst, response_opcode, if_neg (by simpa using h0)]
    have := loop_complete buf (keyboard_getchar (keyboard_disablekeyevents_opcode bk tp k)).2
      hbuf
      (fun j hj => by
        rw [response_getchar, response_opcode]
        exact hack (j + 1) (by omega))
    rw [this.1, this.2, written_getchar, received_getchar, received_opcode]
    exact ⟨rfl, by omega⟩
  · rintro ⟨h1, h2⟩
    subst h1 h2
    simp [keyboard_disablekeyevents_opcode, IGNORE, USE, written_write, makeOnly]
  · rintro ⟨h1, h2⟩
    subst h1 h2
    simp [keyboard_disablekeyevents_opcode, IGNORE, USE, written_write, makeType]
  · rintro ⟨h1, h2⟩
    subst h1 h2
    simp [keyboard_disablekeyevents_opcode, IGNORE, USE, written_write, makeBreak]

/-- Instance of C9: three key codes, ACK after the selector and after the first key
code, a non-ACK answer after the second: the selector and two key codes are
written, the third key code and `ECHO` are not. -/
theorem disablekeyevents_abort_witness :
    (keyboard_disablekeyevents [0x1C, 0x32, 0x21] 1 1 (sampleKbd [2036, 2036, 0])).written
      = [0xFD, 0x1C, 0x32] := by
  have h := (disablekeyevents_abort [0x1C, 0x32, 0x21] 1 1 (sampleKbd [2036, 2036, 0])
    (by decide)).1 2 (by decide) (by decide) (by decide)
  exact h.1.trans (by decide)

/-- C10: `keyboard_setScanCodeSet` leaves the state untouched (no write, no read)
for an argument outside `1..3`; for `1`, `2`, `3` it writes `0xF0`, reads one
response and writes the argument exactly when that response is ACK. -/
theorem setScanCodeSet_traffic (i : Int) (k : Kbd) :
    (i < 1 ∨ 3 < i → keyboard_setScanCodeSet i k = k) ∧
      (1 ≤ i ∧ i ≤ 3 →
        (k.response 0 = ACK →
          (keyboard_setScanCodeSet i k).log =
            k.log ++ [LinkEvent.tx 0xF0, LinkEvent.rx ACK, LinkEvent.tx i.toNat]) ∧
        (k.response 0 ≠ ACK →
          (keyboard_setScanCodeSet i k).log =
            k.log ++ [LinkEvent.tx 0xF0, LinkEvent.rx (k.response 0)]) ∧
        (keyboard_setScanCodeSet i k).received = k.received + 1) := by
  have heq : keyboard_setScanCodeSet i k =
      if i > 3 ∨ i < 1 then k
      else if (keyboard_getchar (keyboard_write SET_SCAN_CODE_SET k)).1 ≠ ACK
        then (keyboard_getchar (keyboard_write SET_SCAN_CODE_SET k)).2
        else keyboard_write (toChar i) (keyboard_getchar (keyboard_write SET_SCAN_CODE_SET k)).2 :=
    rfl
  constructor
  · intro h
    rw [heq, if_pos (by omega)]
  · rintro ⟨h1, h3⟩
    have hc : toChar i % 256 = i.toNat := by unfold toChar; omega
    rw [heq, if_neg (by omega), getchar_fst, response_write]
    refine ⟨?_, ?_, ?_⟩
    · intro hack
      rw [if_neg (by simpa using hack)]
      show k.log ++ [LinkEvent.tx (SET_SCAN_CODE_SET % 256)] ++
        [LinkEvent.rx ((keyboard_write SET_SCAN_CODE_SET k).response 0)] ++
        [LinkEvent.tx (toChar i % 256)] = _
      rw [hc, response_write, hack]
      simp [SET_SCAN_CODE_SET]
    · intro hnack
      rw [if_pos hnack]
      show k.log ++ [LinkEvent.tx (SET_SCAN_CODE_SET % 256)] ++
        [LinkEvent.rx ((keyboard_write SET_SCAN_CODE_SET k).response 0)] = _
      rw [response_write]
      simp [SET_SCAN_CODE_SET]
    · by_cases hack : k.response 0 = ACK
      · rw [if_neg (by simpa using hack)]
        rfl
      · rw [if_pos hack]
        rfl

/-- Instance of C10: set `2` with an ACK answer writes `0xF0, 2`; with a non-ACK
answer only `0xF0`; sets `0` and `4` produce no traffic. -/
theorem setScanCodeSet_traffic_witness :
    (keyboard_setScanCodeSet 2 (sampleKbd [2036])).log =
        [LinkEvent.tx 0xF0, LinkEvent.rx 0xFA, LinkEvent.tx 2] ∧
      (keyboard_setScanCodeSet 2 (sampleKbd [0])).written = [0xF0] ∧
      (keyboard_setScanCodeSet 0 (sampleKbd [2036])).log = [] ∧
      (keyboard_setScanCodeSet 4 (sampleKbd [2036])).log = [] := by
  have h := (setScanCodeSet_traffic 2 (sampleKbd [2036])).2 (by decide)
  have h0 := (setScanCodeSet_traffic 0 (sampleKbd [2036])).1 (by decide)
  have h4 := (setScanCodeSet_traffic 4 (sampleKbd [2036])).1 (by decide)
  refine ⟨(h.1 (by decide)).trans (by decide), by decide, ?_, ?_⟩
  · rw [h0]; rfl
  · rw [h4]; rfl

/-! ## Key event configuration and plain commands -/

/-- Control flow of `keyboard_configkeys`. -/
theorem configkeys_eq (bk tp : Int) (k : Kbd) :
    keyboard_configkeys bk tp k =
      if (keyboard_getchar (keyboard_write amakeBreakType k)).1 ≠ ACK
      then (keyboard_getchar (keyboard_write amakeBreakType k)).2
      else if (keyboard_getchar (keyboard_configkeys_opcode bk tp
          (keyboard_getchar (keyboard_write amakeBreakType k)).2)).1 ≠ ACK
        then (keyboard_getchar (keyboard_configkeys_opcode bk tp
          (keyboard_getchar (keyboard_write amakeBreakType k)).2)).2
        else (keyboard_getchar (keyboard_write ECHO
          (keyboard_getchar (keyboard_configkeys_opcode bk tp
            (keyboard_getchar (keyboard_write amakeBreakType k)).2)).2)).2 := rfl

/-- The second block of `keyboard_configkeys` does not change the coming responses. -/
theorem response_configkeys_opcode (bk tp : Int) (k : Kbd) (j : Nat) :
    (keyboard_configkeys_opcode bk tp k).response j = k.response j := by
  unfold keyboard_configkeys_opcode
  split_ifs <;> rfl

/-- The second block of `keyboard_configkeys` receives nothing. -/
theorem received_configkeys_opcode (bk tp : Int) (k : Kbd) :
    (keyboard_configkeys_opcode bk tp k).received = k.received := by
  unfold keyboard_configkeys_opcode
  split_ifs <;> rfl

/-- Bytes written by `keyboard_configkeys` when the first two responses are ACK. -/
theorem configkeys_written (bk tp : Int) (k : Kbd)
    (h0 : k.response 0 = ACK) (h1 : k.response 1 = ACK) :
    (keyboard_configkeys bk tp k).written =
        (keyboard_configkeys_opcode bk tp
          (keyboard_getchar (keyboard_write amakeBreakType k)).2).written ++ [ECHO] ∧
      (keyboard_configkeys bk tp k).received = k.received + 3 := by
  rw [configkeys_eq, getchar_fst, response_write, if_neg (by simpa using h0), getchar_fst,
    response_configkeys_opcode, response_getchar, response_write, if_neg (by simpa using h1)]
  constructor
  · rw [written_getchar, written_write, written_getchar]
    rfl
  · rw [received_getchar, received_write, received_getchar, received_configkeys_opcode,
      received_getchar, received_write]

/-- C11 (amended): when the first two responses are ACK, `keyboard_configkeys`
first writes `0xFA` (all keys make, break and typematic), then the byte of the
2x2 table for the three combinations that disable something (`0xF9`, `0xF7`,
`0xF8`) and nothing for (USE, USE), then `ECHO`; three receives are made. -/
theorem configkeys_sequence (bk tp : Int) (k : Kbd)
    (h0 : k.response 0 = ACK) (h1 : k.response 1 = ACK) :
    (bk = IGNORE ∧ tp = IGNORE →
        (keyboard_configkeys bk tp k).written = k.written ++ [0xFA, 0xF9, 0xEE]) ∧
      (bk = IGNORE ∧ tp = USE →
        (keyboard_configkeys bk tp k).written = k.written ++ [0xFA, 0xF7, 0xEE]) ∧
      (bk = USE ∧ tp = IGNORE →
        (keyboard_configkeys bk tp k).written = k.written ++ [0xFA, 0xF8, 0xEE]) ∧
      (bk = USE ∧ tp = USE →
        (keyboard_configkeys bk tp k).written = k.written ++ [0xFA, 0xEE]) ∧
      (keyboard_configkeys bk tp k).received = k.received + 3 := by
  obtain ⟨hw, hr⟩ := configkeys_written bk tp k h0 h1
  refine ⟨?_, ?_, ?_, ?_, hr⟩
  · rintro ⟨a, b⟩
    subst a b
    rw [hw]
    simp [keyboard_configkeys_opcode, IGNORE, USE, written_write, written_getchar,
      amakeOnly, amakeBreakType, ECHO]
  · rintro ⟨a, b⟩
    subst a b
    rw [hw]
    simp [keyboard_configkeys_opcode, IGNORE, USE, written_write, written_getchar,
      amakeType, amakeBreakType, ECHO]
  · rintro ⟨a, b⟩
    subst a b
    rw [hw]
    simp [keyboard_configkeys_opcode, IGNORE, USE, written_write, written_getchar,
      amakeBreak, amakeBreakType, ECHO]
  · rintro ⟨a, b⟩
    subst a b
    rw [hw]
    simp [keyboard_configkeys_opcode, IGNORE, USE, written_write, written_getchar,
      amakeBreakType, ECHO]

/-- Instance of C11 (amended): ignore break and typematic, every answer ACK. -/
theorem configkeys_sequence_witness :
    (keyboard_configkeys 1 1 (sampleKbd [2036, 2036, 2036])).written = [0xFA, 0xF9, 0xEE] := by
  have h := (configkeys_sequence 1 1 (sampleKbd [2036, 2036, 2036]) (by decide) (by decide)).1
    ⟨by decide, by decide⟩
  exact h

/-- C11 (counterexample): with ignore-break and ignore-typematic both set and every
answer ACK, the bytes written are `0xFA, 0xF9, 0xEE`, not `0xF9, 0xEE`. -/
theorem configkeys_not_single_selector :
    (sampleKbd [2036, 2036, 2036]).response 0 = ACK ∧
      (sampleKbd [2036, 2036, 2036]).response 1 = ACK ∧
      (sampleKbd [2036, 2036, 2036]).response 2 = ACK ∧
      (keyboard_configkeys 1 1 (sampleKbd [2036, 2036, 2036])).written = [0xFA, 0xF9, 0xEE] ∧
      (keyboard_configkeys 1 1 (sampleKbd [2036, 2036, 2036])).written ≠ [0xF9, 0xEE] := by
  decide

/-- The key code loop only appends to the link trace. -/
theorem loop_log_extends : ∀ (buf : List Nat) (k : Kbd),
    ∃ rest, (keyboard_disablekeyevents_loop buf k).log = k.log ++ rest := by
  intro buf
  induction buf with
  | nil => intro k; exact ⟨[LinkEvent.tx (ECHO % 256)], rfl⟩
  | cons c rest ih =>
    intro k
    rw [disablekeyevents_loop_cons]
    by_cases h : (keyboard_getchar (keyboard_write c k)).1 ≠ ACK
    · rw [if_pos h]
      exact ⟨[LinkEvent.tx (c % 256), LinkEvent.rx ((keyboard_write c k).response 0)], by
        rw [getchar_log]
        show k.log ++ [LinkEvent.tx (c % 256)] ++ _ = _
        simp⟩
    · rw [if_neg h]
      obtain ⟨r, hr⟩ := ih (keyboard_getchar (keyboard_write c k)).2
      exact ⟨[LinkEvent.tx (c % 256), LinkEvent.rx ((keyboard_write c k).response 0)] ++ r, by
        rw [hr, getchar_log]
        show k.log ++ [LinkEvent.tx (c % 256)] ++ _ ++ r = _
        simp⟩

/-- C12 (amended): for (IGNORE, IGNORE), (IGNORE, USE) and (USE, IGNORE) the block
before the first ACK wait of `keyboard_disablekeyevents` writes exactly one
byte, `0xFD`, `0xFB` and `0xFC` respectively, and receives nothing; the first
receive of the command follows directly. -/
theorem disablekeyevents_selector (bk tp : Int) (k : Kbd) :
    (bk = IGNORE ∧ tp = IGNORE →
        (keyboard_disablekeyevents_opcode bk tp k).log = k.log ++ [LinkEvent.tx 0xFD]) ∧
      (bk = IGNORE ∧ tp = USE →
        (keyboard_disablekeyevents_opcode bk tp k).log = k.log ++ [LinkEvent.tx 0xFB]) ∧
      (bk = USE ∧ tp = IGNORE →
        (keyboard_disablekeyevents_opcode bk tp k).log = k.log ++ [LinkEvent.tx 0xFC]) ∧
      (keyboard_disablekeyevents_opcode bk tp k).received = k.received ∧
      (∀ buf, ∃ rest, (keyboard_disablekeyevents buf bk tp k).log =
        (keyboard_disablekeyevents_opcode bk tp k).log ++
          LinkEvent.rx (k.response 0) :: rest) := by
  refine ⟨?_, ?_, ?_, received_opcode bk tp k, ?_⟩
  · rintro ⟨a, b⟩
    subst a b
    simp [keyboard_disablekeyevents_opcode, IGNORE, USE, keyboard_write, makeOnly]
  · rintro ⟨a, b⟩
    subst a b
    simp [keyboard_disablekeyevents_opcode, IGNORE, USE, keyboard_write, makeType]
  · rintro ⟨a, b⟩
    subst a b
    simp [keyboard_disablekeyevents_opcode, IGNORE, USE, keyboard_write, makeBreak]
  · intro buf
    rw [disablekeyevents_eq]
    by_cases h : (keyboard_getchar (keyboard_disablekeyevents_opcode bk tp k)).1 ≠ ACK
    · rw [if_pos h, getchar_log, response_opcode]
      exact ⟨[], rfl⟩
    · rw [if_neg h]
      obtain ⟨r, hr⟩ := loop_log_extends buf
        (keyboard_getchar (keyboard_disablekeyevents_opcode bk tp k)).2
      rw [hr, getchar_log, response_opcode]
      exact ⟨r, by simp⟩

/-- Instance of C12 (amended) at (IGNORE, USE). -/
theorem disablekeyevents_selector_witness :
    (keyboard_disablekeyevents_opcode 1 0 (sampleKbd [])).log = [LinkEvent.tx 0xFB] := by
  have h := (disablekeyevents_selector 1 0 (sampleKbd [])).2.1 ⟨by decide, by decide⟩
  exact h

/-- C12 (counterexample): for (USE, USE) no byte is written before the first ACK
wait; the first link event of the command is already the receive. -/
theorem disablekeyevents_no_selector_use_use :
    (keyboard_disablekeyevents_opcode 0 0 (sampleKbd [2036])).written = [] ∧
      (keyboard_disablekeyevents [0x1C] 0 0 (sampleKbd [2036, 2036])).log =
        [LinkEvent.rx 0xFA, LinkEvent.tx 0x1C, LinkEvent.rx 0xFA, LinkEvent.tx 0xEE] := by
  decide

/-- C13: `keyboard_enable`, `keyboard_disable` and `keyboard_default` each write
exactly one byte (`0xF4`, `0xF5`, `0xF6`), receive nothing and leave the three
validation flags as they were. -/
theorem fire_and_forget (k : Kbd) :
    ((keyboard_enable k).log = k.log ++ [LinkEvent.tx 0xF4] ∧
        (keyboard_disable k).log = k.log ++ [LinkEvent.tx 0xF5] ∧
        (keyboard_default k).log = k.log ++ [LinkEvent.tx 0xF6]) ∧
      ((keyboard_enable k).received = k.received ∧
        (keyboard_disable k).received = k.received ∧
        (keyboard_default k).received = k.received) ∧
      ((keyboard_enable k).igStart = k.igStart ∧ (keyboard_enable k).igStop = k.igStop ∧
        (keyboard_enable k).igParity = k.igParity) ∧
      ((keyboard_disable k).igStart = k.igStart ∧ (keyboard_disable k).igStop = k.igStop ∧
        (keyboard_disable k).igParity = k.igParity) ∧
      ((keyboard_default k).igStart = k.igStart ∧ (keyboard_default k).igStop = k.igStop ∧
        (keyboard_default k).igParity = k.igParity) ∧
      ((keyboard_enable k).pins = k.pins ++ keyboard_write_pins 0xF4 ∧
        (keyboard_disable k).pins = k.pins ++ keyboard_write_pins 0xF5 ∧
        (keyboard_default k).pins = k.pins ++ keyboard_write_pins 0xF6) :=
  ⟨⟨rfl, rfl, rfl⟩, ⟨rfl, rfl, rfl⟩, ⟨rfl, rfl, rfl⟩, ⟨rfl, rfl, rfl⟩, ⟨rfl, rfl, rfl⟩,
    ⟨rfl, rfl, rfl⟩⟩

/-- C14 (amended): `keyboard_reset`, `keyboard_resend` and `keyboard_echo` each write
their command code (`0xFF`, `0xFE`, `0xEE`) and then make exactly one receive,
whose value is not compared with ACK; `keyboard_resend` and `keyboard_echo`
hand the received value to the caller, `keyboard_reset` hands back nothing. -/
theorem reset_resend_echo (k : Kbd) :
    ((keyboard_reset k).2.log = k.log ++ [LinkEvent.tx 0xFF, LinkEvent.rx (k.response 0)] ∧
        (keyboard_resend k).2.log = k.log ++ [LinkEvent.tx 0xFE, LinkEvent.rx (k.response 0)] ∧
        (keyboard_echo k).2.log = k.log ++ [LinkEvent.tx 0xEE, LinkEvent.rx (k.response 0)]) ∧
      ((keyboard_reset k).2.received = k.received + 1 ∧
        (keyboard_resend k).2.received = k.received + 1 ∧
        (keyboard_echo k).2.received = k.received + 1) ∧
      (keyboard_resend k).1 = [k.response 0] ∧
      (keyboard_echo k).1 = [k.response 0] ∧
      (keyboard_reset k).1 = [] := by
  refine ⟨⟨?_, ?_, ?_⟩, ⟨rfl, rfl, rfl⟩, rfl, rfl, rfl⟩
  · show k.log ++ [LinkEvent.tx (RESET % 256)] ++ [LinkEvent.rx (k.response 0)] = _
    simp [RESET]
  · show k.log ++ [LinkEvent.tx (RESEND % 256)] ++ [LinkEvent.rx (k.response 0)] = _
    simp [RESEND]
  · show k.log ++ [LinkEvent.tx (ECHO % 256)] ++ [LinkEvent.rx (k.response 0)] = _
    simp [ECHO]

/-- C14 (counterexample): the keyboard answers `0xFA` to the reset command, and
`keyboard_reset` hands nothing back to the caller, while `keyboard_resend` and
`keyboard_echo` hand back the answer. -/
theorem reset_returns_nothing :
    (sampleKbd [2036]).response 0 = 0xFA ∧
      (keyboard_reset (sampleKbd [2036])).2.log = [LinkEvent.tx 0xFF, LinkEvent.rx 0xFA] ∧
      (keyboard_reset (sampleKbd [2036])).1 = [] ∧
      (keyboard_reset (sampleKbd [2036])).1 ≠ [0xFA] ∧
      (keyboard_resend (sampleKbd [2036])).1 = [0xFA] ∧
      (keyboard_echo (sampleKbd [2036])).1 = [0xFA] := by
  decide

/-- C15: every error return of `keyboard_getchar` hands back `ERROR = 0`; the valid
frame `1536` (start 0, data 0, parity 1, stop 1) is accepted with all checks
enabled and also yields `0`; so a valid and an invalid frame exist on which
`keyboard_getchar` returns the same value. -/
theorem error_conflated_with_zero :
    (∀ o : Outcome, o.isError = true → o.value = ERROR) ∧ ERROR = 0 ∧
      1536 = 0 + 2 * 0 + 512 * genCRC 0 + 1024 ∧
      keyboard_getchar_checks USE USE USE 1536 = Outcome.ok 0 ∧
      (keyboard_getchar (sampleKbd [1536])).1 = 0 ∧
      (∃ valid invalid : Nat, valid < 2048 ∧ invalid < 2048 ∧
        (keyboard_getchar_checks USE USE USE valid).isError = false ∧
        (keyboard_getchar_checks USE USE USE invalid).isError = true ∧
        (keyboard_getchar (sampleKbd [valid])).1 = (keyboard_getchar (sampleKbd [invalid])).1) := by
  refine ⟨?_, rfl, by decide, by decide, by decide, 1536, 0, by decide, by decide, by decide,
    by decide, by decide⟩
  intro o h
  cases o with
  | ok d => cases h
  | startError => rfl
  | stopError => rfl
  | parityError => rfl

/-- Instance of C15: the all-zero line fails the stop bit check and yields `0`. -/
theorem error_conflated_with_zero_witness :
    (keyboard_getchar_checks USE USE USE 0).value = 0 :=
  error_conflated_with_zero.1 _ (by decide)

/-- Exact behaviour of `checkCRC` on every 11-bit word, checked one by one. -/
theorem checkCRC_table : ∀ f, f < 2048 →
    ((checkCRC f = 0 ↔ (f.testBit 9 = false ∧ popcount8 ((f >>> 1) &&& 255) % 2 = 0)) ∧
      (checkCRC f = 0 ∨ checkCRC f = 1) ∧
      (f.testBit 9 = true → checkCRC f = 1)) := by
  decide!

/-- C19: `checkCRC( f )` returns `0` exactly when bit 9 of `f` is `0` and the data
bits `(f >> 1) & 255` hold an even number of ones; so a frame whose bit 9 is `1`
passes the parity check of `keyboard_getchar` whatever its data bits are. -/
theorem checkCRC_exact (f : Nat) (hf : f < 2048) :
    (checkCRC f = 0 ↔ (f.testBit 9 = false ∧ popcount8 ((f >>> 1) &&& 255) % 2 = 0)) ∧
      (f.testBit 9 = true → checkCRC f = 1 ∧
        ∀ igStart igStop igParity,
          keyboard_getchar_checks igStart igStop igParity f ≠ Outcome.parityError) := by
  obtain ⟨h1, _, h3⟩ := checkCRC_table f hf
  refine ⟨h1, fun h9 => ⟨h3 h9, ?_⟩⟩
  intro igStart igStop igParity
  have hc : ¬ (checkCRC f = 0 ∧ igParity = USE) := by
    rw [h3 h9]
    rintro ⟨h, _⟩
    cases h
  unfold keyboard_getchar_checks
  rw [if_neg hc]
  split_ifs <;> simp

/-- Instance of C19: the frame `1538` (data `1`, parity bit `1`) passes. -/
theorem checkCRC_exact_witness :
    checkCRC 1538 = 1 ∧ keyboard_getchar_checks USE USE USE 1538 ≠ Outcome.parityError := by
  have h := (checkCRC_exact 1538 (by decide)).2 (by decide)
  exact ⟨h.1, h.2 USE USE USE⟩

/-- C20: for every requested rate and delay the indices stay inside the tables
(`rateId ≤ 31`, `delayId ≤ 3`), the control byte `rateId | (delayId << 5)` is
at most 127, it is the byte written after `0xF3`, and the indices are recovered
from it as `cmd & 31` and `cmd >> 5`. -/
theorem control_byte_bounds (rate delay : Int) (k : Kbd) :
    rateId rate < rates.length ∧ delayId delay < delays.length ∧
      rateId rate ≤ 31 ∧ delayId delay ≤ 3 ∧
      rateId rate ||| (delayId delay <<< 5) ≤ 127 ∧
      (rateId rate ||| (delayId delay <<< 5)).testBit 7 = false ∧
      (rateId rate ||| (delayId delay <<< 5)) &&& 31 = rateId rate ∧
      (rateId rate ||| (delayId delay <<< 5)) >>> 5 = delayId delay ∧
      (keyboard_setRepeatRateAndDelay rate delay k).2.written =
        k.written ++ [0xF3, rateId rate ||| (delayId delay <<< 5)] ∧
      rateId (-2147483648) = 0 ∧ delayId (-2147483648) = 3 ∧
      rateId 2147483647 = 0 ∧ delayId (-1) = 0 := by
  have hr := rateId_lt rate
  have hd := delayId_lt delay
  obtain ⟨h1, h2, h3, h4⟩ := cmd_byte _ hr _ hd
  have h7 : ∀ c, c < 128 → c.testBit 7 = false := by decide
  refine ⟨hr, hd, by omega, by omega, by omega, h7 _ h2, h3, h4, ?_, by decide, by decide,
    by decide, by decide⟩
  show (keyboard_write (rateId rate ||| (delayId delay <<< 5) % 4294967296)
    (keyboard_write 0xF3 k)).written = _
  rw [written_write, written_write, h1]
  simp

/-- The parameter byte of `keyboard_setleds` for the eight settings of the three
indicators, checked one by one. -/
theorem setleds_table : ∀ num, num < 2 → ∀ caps, caps < 2 → ∀ scroll, scroll < 2 →
    ((0 ||| (toUInt (num : Nat) <<< 1) % 4294967296 ||| (toUInt (caps : Nat) <<< 2) % 4294967296
        ||| toUInt (scroll : Nat)) % 256 = (num <<< 1) ||| (caps <<< 2) ||| scroll ∧
      (num <<< 1) ||| (caps <<< 2) ||| scroll = 2 * num + 4 * caps + scroll ∧
      ((num <<< 1) ||| (caps <<< 2) ||| scroll).testBit 0 = decide (scroll = 1) ∧
      ((num <<< 1) ||| (caps <<< 2) ||| scroll).testBit 1 = decide (num = 1) ∧
      ((num <<< 1) ||| (caps <<< 2) ||| scroll).testBit 2 = decide (caps = 1)) := by
  decide

/-- C18: for `num`, `caps`, `scroll` in `{0, 1}`, `keyboard_setleds` writes the two
bytes `0xED` and `(num << 1) | (caps << 2) | scroll` and receives nothing; the
parameter is at most 7, with bit 0 Scroll Lock, bit 1 Num Lock and bit 2 Caps
Lock. -/
theorem setleds_bytes (num caps scroll : Nat) (k : Kbd)
    (hn : num ≤ 1) (hc : caps ≤ 1) (hs : scroll ≤ 1) :
    (keyboard_setleds num caps scroll k).log =
        k.log ++ [LinkEvent.tx 0xED, LinkEvent.tx ((num <<< 1) ||| (caps <<< 2) ||| scroll)] ∧
      (keyboard_setleds num caps scroll k).received = k.received ∧
      (num <<< 1) ||| (caps <<< 2) ||| scroll ≤ 7 ∧
      (num <<< 1) ||| (caps <<< 2) ||| scroll = 2 * num + 4 * caps + scroll ∧
      (((num <<< 1) ||| (caps <<< 2) ||| scroll).testBit 0 = true ↔ scroll = 1) ∧
      (((num <<< 1) ||| (caps <<< 2) ||| scroll).testBit 1 = true ↔ num = 1) ∧
      (((num <<< 1) ||| (caps <<< 2) ||| scroll).testBit 2 = true ↔ caps = 1) := by
  obtain ⟨h1, h2, h3, h4, h5⟩ := setleds_table num (by omega) caps (by omega) scroll (by omega)
  refine ⟨?_, rfl, by omega, h2, by simp [h3], by simp [h4], by simp [h5]⟩
  show k.log ++ [LinkEvent.tx (SETLEDS % 256)] ++
    [LinkEvent.tx ((0 ||| (toUInt (num : Nat) <<< 1) % 4294967296
      ||| (toUInt (caps : Nat) <<< 2) % 4294967296 ||| toUInt (scroll : Nat)) % 256)] = _
  rw [h1]
  simp [SETLEDS]

/-- Instance of C18: Num Lock and Scroll Lock on, Caps Lock off. -/
theorem setleds_bytes_witness :
    (keyboard_setleds 1 0 1 (sampleKbd [])).log = [LinkEvent.tx 0xED, LinkEvent.tx 3] := by
  have h := (setleds_bytes 1 0 1 (sampleKbd []) (by decide) (by decide) (by decide)).1
  exact h.trans (by decide)

/-! ## Link layer: pin-level properties -/

/-- The platform calls of `keyboard_write`, for every byte, checked one by one. -/
theorem write_pins_table : ∀ d, d < 256 →
    (keyboard_write_pins d = expectedWritePins d ∧
      (keyboard_write_pins d).count PinEvent.clockLow = 11 ∧
      (keyboard_write_pins d).count PinEvent.clockHigh = 11 ∧
      (dataLevels (keyboard_write_pins d)).length = 11) := by
  decide!

/-- C16: for every byte `d` the platform calls of `keyboard_write( d )` are, in
order: clock pulldown cleared, a delay of 120 microseconds, data pulldown
cleared, clock pulldown set; then one clock period per bit in which the data
pulldown is driven to bit 0, ..., bit 7 of `d`, then to `genCRC d`, then to `1`;
and an eleventh clock period in which no pin is driven.  Eleven clock periods
are consumed, nothing is received and the function yields only the new state. -/
theorem write_pin_sequence (d : Nat) (hd : d < 256) (k : Kbd) :
    keyboard_write_pins d = expectedWritePins d ∧
      (keyboard_write d k).pins = k.pins ++ expectedWritePins d ∧
      (keyboard_write_pins d).count PinEvent.clockLow = 11 ∧
      (keyboard_write_pins d).count PinEvent.clockHigh = 11 ∧
      (keyboard_write d k).received = k.received ∧
      (keyboard_write d k).log = k.log ++ [LinkEvent.tx d] := by
  obtain ⟨h1, h2, h3, _⟩ := write_pins_table d hd
  refine ⟨h1, ?_, h2, h3, rfl, ?_⟩
  · show k.pins ++ keyboard_write_pins d = _
    rw [h1]
  · show k.log ++ [LinkEvent.tx (d % 256)] = _
    rw [Nat.mod_eq_of_lt hd]

/-- Instance of C16 at the byte `0x05`: bits 0 and 2 set, parity bit `1`. -/
theorem write_pin_sequence_witness :
    keyboard_write_pins 5 =
      [PinEvent.pinClear Pin.P_CLK_PD, PinEvent.timerDelay 1 120,
        PinEvent.pinClear Pin.P_DATA_PD, PinEvent.pinSet Pin.P_CLK_PD,
        PinEvent.clockLow, PinEvent.pinSet Pin.P_DATA_PD, PinEvent.clockHigh,
        PinEvent.clockLow, PinEvent.pinClear Pin.P_DATA_PD, PinEvent.clockHigh,
        PinEvent.clockLow, PinEvent.pinSet Pin.P_DATA_PD, PinEvent.clockHigh,
        PinEvent.clockLow, PinEvent.pinClear Pin.P_DATA_PD, PinEvent.clockHigh,
        PinEvent.clockLow, PinEvent.pinClear Pin.P_DATA_PD, PinEvent.clockHigh,
        PinEvent.clockLow, PinEvent.pinClear Pin.P_DATA_PD, PinEvent.clockHigh,
        PinEvent.clockLow, PinEvent.pinClear Pin.P_DATA_PD, PinEvent.clockHigh,
        PinEvent.clockLow, PinEvent.pinClear Pin.P_DATA_PD, PinEvent.clockHigh,
        PinEvent.clockLow, PinEvent.pinSet Pin.P_DATA_PD, PinEvent.clockHigh,
        PinEvent.clockLow, PinEvent.pinSet Pin.P_DATA_PD, PinEvent.clockHigh,
        PinEvent.clockLow, PinEvent.clockHigh] := by
  have h := (write_pin_sequence 5 (by decide) (sampleKbd [])).1
  exact h.trans (by decide)

/-- Shift and or of the sampling loop as arithmetic, on 11-bit words. -/
theorem shift_or_table : ∀ x, x < 2048 →
    (x >>> 1 = x / 2 ∧ (x >>> 1) ||| (1 <<< 10) = x / 2 + 1024) := by
  decide!

/-- One iteration of the sampling loop as arithmetic on the word. -/
theorem getchar_loop_step (line : Nat → Nat) (n i data next : Nat) (h : data < 2048)
    (hnext : next = data / 2 + 1024 * sampleBit (line i)) :
    keyboard_getchar_loop line (n + 1) i data = keyboard_getchar_loop line n (i + 1) next := by
  obtain ⟨h1, h2⟩ := shift_or_table data h
  rw [keyboard_getchar_loop, hnext]
  unfold sampleBit
  by_cases hl : line i = 1
  · simp only [if_pos hl, h2, Nat.mul_one]
  · simp only [if_neg hl, h1, Nat.mul_zero, Nat.add_zero]

/-- A sample bit is `0` or `1`. -/
theorem sampleBit_le (v : Nat) : sampleBit v ≤ 1 := by
  unfold sampleBit
  split <;> omega

/-- C17: the word assembled by the sampling loop of `keyboard_getchar` from the
eleven samples `line 1, ..., line 11` is the sum of `b_i * 2^i`, where `b_i` is
the bit of the sample taken in iteration `i + 1`: the first sample is bit 0
(start), the next eight are the data bits, the tenth is bit 9 (parity), the
eleventh bit 10 (stop).  The word is below 2048. -/
theorem lsb_first_assembly (line : Nat → Nat) :
    keyboard_getchar_loop line 11 1 0 =
        sampleBit (line 1) + 2 * sampleBit (line 2) + 4 * sampleBit (line 3)
          + 8 * sampleBit (line 4) + 16 * sampleBit (line 5) + 32 * sampleBit (line 6)
          + 64 * sampleBit (line 7) + 128 * sampleBit (line 8) + 256 * sampleBit (line 9)
          + 512 * sampleBit (line 10) + 1024 * sampleBit (line 11) ∧
      keyboard_getchar_loop line 11 1 0 < 2048 ∧
      keyboard_getchar_loop line 11 1 0 % 2 = sampleBit (line 1) ∧
      keyboard_getchar_loop line 11 1 0 / 2 % 256 =
        sampleBit (line 2) + 2 * sampleBit (line 3) + 4 * sampleBit (line 4)
          + 8 * sampleBit (line 5) + 16 * sampleBit (line 6) + 32 * sampleBit (line 7)
          + 64 * sampleBit (line 8) + 128 * sampleBit (line 9) ∧
      keyboard_getchar_loop line 11 1 0 / 512 % 2 = sampleBit (line 10) ∧
      keyboard_getchar_loop line 11 1 0 / 1024 % 2 = sampleBit (line 11) := by
  have b1 := sampleBit_le (line 1)
  have b2 := sampleBit_le (line 2)
  have b3 := sampleBit_le (line 3)
  have b4 := sampleBit_le (line 4)
  have b5 := sampleBit_le (line 5)
  have b6 := sampleBit_le (line 6)
  have b7 := sampleBit_le (line 7)
  have b8 := sampleBit_le (line 8)
  have b9 := sampleBit_le (line 9)
  have b10 := sampleBit_le (line 10)
  have b11 := sampleBit_le (line 11)
  have key : keyboard_getchar_loop line 11 1 0 =
      sampleBit (line 1) + 2 * sampleBit (line 2) + 4 * sampleBit (line 3)
        + 8 * sampleBit (line 4) + 16 * sampleBit (line 5) + 32 * sampleBit (line 6)
        + 64 * sampleBit (line 7) + 128 * sampleBit (line 8) + 256 * sampleBit (line 9)
        + 512 * sampleBit (line 10) + 1024 * sampleBit (line 11) := by
    calc keyboard_getchar_loop line 11 1 0
        = keyboard_getchar_loop line 10 2
          (1024 * sampleBit (line 1)) :=
          getchar_loop_step line 10 1 _ _ (by omega) (by omega)
      _ = keyboard_getchar_loop line 9 3
          (512 * sampleBit (line 1) + 1024 * sampleBit (line 2)) :=
          getchar_loop_step line 9 2 _ _ (by omega) (by omega)
      _ = keyboard_getchar_loop line 8 4
          (256 * sampleBit (line 1) + 512 * sampleBit (line 2) + 1024 * sampleBit (line 3)) :=
          getchar_loop_step line 8 3 _ _ (by omega) (by omega)
      _ = keyboard_getchar_loop line 7 5
          (128 * sampleBit (line 1) + 256 * sampleBit (line 2) + 512 * sampleBit (line 3)
            + 1024 * sampleBit (line 4)) :=
          getchar_loop_step line 7 4 _ _ (by omega) (by omega)
      _ = keyboard_getchar_loop line 6 6
          (64 * sampleBit (line 1) + 128 * sampleBit (line 2) + 256 * sampleBit (line 3)
            + 512 * sampleBit (line 4) + 1024 * sampleBit (line 5)) :=
          getchar_loop_step line 6 5 _ _ (by omega) (by omega)
      _ = keyboard_getchar_loop line 5 7
          (32 * sampleBit (line 1) + 64 * sampleBit (line 2) + 128 * sampleBit (line 3)
            + 256 * sampleBit (line 4) + 512 * sampleBit (line 5) + 1024 * sampleBit (line 6)) :=
          getchar_loop_step line 5 6 _ _ (by omega) (by omega)
      _ = keyboard_getchar_loop line 4 8
          (16 * sampleBit (line 1) + 32 * sampleBit (line 2) + 64 * sampleBit (line 3)
            + 128 * sampleBit (line 4) + 256 * sampleBit (line 5) + 512 * sampleBit (line 6)
            + 1024 * sampleBit (line 7)) :=
          getchar_loop_step line 4 7 _ _ (by omega) (by omega)
      _ = keyboard_getchar_loop line 3 9
          (8 * sampleBit (line 1) + 16 * sampleBit (line 2) + 32 * sampleBit (line 3)
            + 64 * sampleBit (line 4) + 128 * sampleBit (line 5) + 256 * sampleBit (line 6)
            + 512 * sampleBit (line 7) + 1024 * sampleBit (line 8)) :=
          getchar_loop_step line 3 8 _ _ (by omega) (by omega)
      _ = keyboard_getchar_loop line 2 10
          (4 * sampleBit (line 1) + 8 * sampleBit (line 2) + 16 * sampleBit (line 3)
            + 32 * sampleBit (line 4) + 64 * sampleBit (line 5) + 128 * sampleBit (line 6)
            + 256 * sampleBit (line 7) + 512 * sampleBit (line 8) + 1024 * sampleBit (line 9)) :=
          getchar_loop_step line 2 9 _ _ (by omega) (by omega)
      _ = keyboard_getchar_loop line 1 11
          (2 * sampleBit (line 1) + 4 * sampleBit (line 2) + 8 * sampleBit (line 3)
            + 16 * sampleBit (line 4) + 32 * sampleBit (line 5) + 64 * sampleBit (line 6)
            + 128 * sampleBit (line 7) + 256 * sampleBit (line 8) + 512 * sampleBit (line 9)
            + 1024 * sampleBit (line 10)) :=
          getchar_loop_step line 1 10 _ _ (by omega) (by omega)
      _ = keyboard_getchar_loop line 0 12
          (sampleBit (line 1) + 2 * sampleBit (line 2) + 4 * sampleBit (line 3)
            + 8 * sampleBit (line 4) + 16 * sampleBit (line 5) + 32 * sampleBit (line 6)
            + 64 * sampleBit (line 7) + 128 * sampleBit (line 8) + 256 * sampleBit (line 9)
            + 512 * sampleBit (line 10) + 1024 * sampleBit (line 11)) :=
          getchar_loop_step line 0 11 _ _ (by omega) (by omega)
      _ = _ := by rw [keyboard_getchar_loop]
  rw [key]
  refine ⟨rfl, ?_, ?_, ?_, ?_, ?_⟩ <;> omega

end Keyboard
